import Mathlib

set_option autoImplicit false

/-! Shallow embedding of the pelicide runner core.

The definitions below are translated from the repository sources:
 - `src/pelicide/runner.py` — the subprocess channel, the command
   multiplexer (`RunnerProcess`) and the worker lifecycle manager
   (`Runner`);
 - `src/pelicide/sites.py` — site session management (`cleanup_site`
   and the teardown loop of `load_sites`);
 - `src/pelicide/pelican-runner.py` — the worker's dispatch loop.

Machine-level concerns (byte streams, the event loop) are modelled by
explicit state passing: the reader activity consumes a list of already
split reply lines, the writer activity consumes the list of submissions
taken from the queue in FIFO order, and asyncio futures are modelled as
single-assignment result slots that may also be cancelled by their
awaiting caller.  An operation that would raise an uncaught Python
exception is modelled by an explicit error value, because control flow
in `RunnerProcess.run` depends on which exceptions are caught.  -/

/-- JSON values, as decoded by `json.loads` and produced by
`json.dumps`.  Payloads travel through the line protocol in this decoded
form; string escaping is not modelled (no claim exercises it). -/
inductive Json where
  | null
  | bool (b : Bool)
  | num (n : Int)
  | str (s : String)
  | arr (elems : List Json)
  | obj (fields : List (String × Json))

mutual

/-- Structural boolean equality on JSON values. -/
def Json.beq : Json → Json → Bool
  | Json.null, Json.null => true
  | Json.bool a, Json.bool b => a == b
  | Json.num a, Json.num b => a == b
  | Json.str a, Json.str b => a == b
  | Json.arr xs, Json.arr ys => Json.beqItems xs ys
  | Json.obj xs, Json.obj ys => Json.beqFields xs ys
  | _, _ => false

/-- Pointwise boolean equality on arrays of JSON values. -/
def Json.beqItems : List Json → List Json → Bool
  | [], [] => true
  | x :: xs, y :: ys => Json.beq x y && Json.beqItems xs ys
  | _, _ => false

/-- Pointwise boolean equality on object field lists. -/
def Json.beqFields : List (String × Json) → List (String × Json) → Bool
  | [], [] => true
  | f :: fs, g :: gs => (f.1 == g.1 && Json.beq f.2 g.2) && Json.beqFields fs gs
  | _, _ => false

end

mutual

/-- Soundness of `Json.beq`. -/
theorem Json.eq_of_beq : ∀ (a b : Json), Json.beq a b = true → a = b
  | Json.null, b, h => by
    cases b <;> simp [Json.beq] at h ⊢
  | Json.bool a, b, h => by
    cases b <;> simp [Json.beq] at h ⊢
    exact h
  | Json.num a, b, h => by
    cases b <;> simp [Json.beq] at h ⊢
    exact h
  | Json.str a, b, h => by
    cases b <;> simp [Json.beq] at h ⊢
    exact h
  | Json.arr xs, b, h => by
    cases b <;> simp [Json.beq] at h ⊢
    case arr ys => exact Json.eqItems_of_beq xs ys h
  | Json.obj xs, b, h => by
    cases b <;> simp [Json.beq] at h ⊢
    case obj ys => exact Json.eqFields_of_beq xs ys h

/-- Soundness of `Json.beqItems`. -/
theorem Json.eqItems_of_beq : ∀ (xs ys : List Json), Json.beqItems xs ys = true → xs = ys
  | [], [], _ => rfl
  | [], _ :: _, h => by simp [Json.beqItems] at h
  | _ :: _, [], h => by simp [Json.beqItems] at h
  | x :: xs, y :: ys, h => by
    simp only [Json.beqItems, Bool.and_eq_true] at h
    rw [Json.eq_of_beq x y h.1, Json.eqItems_of_beq xs ys h.2]

/-- Soundness of `Json.beqFields`. -/
theorem Json.eqFields_of_beq :
    ∀ (xs ys : List (String × Json)), Json.beqFields xs ys = true → xs = ys
  | [], [], _ => rfl
  | [], _ :: _, h => by simp [Json.beqFields] at h
  | _ :: _, [], h => by simp [Json.beqFields] at h
  | f :: fs, g :: gs, h => by
    simp only [Json.beqFields, Bool.and_eq_true, beq_iff_eq] at h
    have h2 := Json.eq_of_beq f.2 g.2 h.1.2
    have h3 := Json.eqFields_of_beq fs gs h.2
    have h1 : f = g := Prod.ext h.1.1 h2
    rw [h1, h3]

end

mutual

/-- Reflexivity of `Json.beq`. -/
theorem Json.beq_refl : ∀ (a : Json), Json.beq a a = true
  | Json.null => rfl
  | Json.bool a => by simp [Json.beq]
  | Json.num a => by simp [Json.beq]
  | Json.str a => by simp [Json.beq]
  | Json.arr xs => Json.beqItems_refl xs
  | Json.obj xs => Json.beqFields_refl xs

/-- Reflexivity of `Json.beqItems`. -/
theorem Json.beqItems_refl : ∀ (xs : List Json), Json.beqItems xs xs = true
  | [] => rfl
  | x :: xs => by
    simp only [Json.beqItems, Bool.and_eq_true]
    exact ⟨Json.beq_refl x, Json.beqItems_refl xs⟩

/-- Reflexivity of `Json.beqFields`. -/
theorem Json.beqFields_refl : ∀ (xs : List (String × Json)), Json.beqFields xs xs = true
  | [] => rfl
  | f :: fs => by
    simp only [Json.beqFields, Bool.and_eq_true, beq_iff_eq]
    exact ⟨⟨trivial, Json.beq_refl f.2⟩, Json.beqFields_refl fs⟩

end

/-- Decidable equality for JSON values via `Json.beq`. -/
instance Json.instDecidableEq : DecidableEq Json := fun a b =>
  if h : Json.beq a b = true then isTrue (Json.eq_of_beq a b h)
  else isFalse (fun he => h (he ▸ Json.beq_refl a))

mutual

/-- Serialization mirroring `json.dumps` on the modelled values. -/
def Json.dumps : Json → String
  | Json.null => "null"
  | Json.bool true => "true"
  | Json.bool false => "false"
  | Json.num n => toString n
  | Json.str s => "\"" ++ s ++ "\""
  | Json.arr elems => "[" ++ Json.dumpsItems elems ++ "]"
  | Json.obj fields => "\x7b" ++ Json.dumpsFields fields ++ "\x7d"

/-- Comma-separated serialization of array elements. -/
def Json.dumpsItems : List Json → String
  | [] => ""
  | [x] => Json.dumps x
  | x :: rest => Json.dumps x ++ ", " ++ Json.dumpsItems rest

/-- Comma-separated serialization of object fields. -/
def Json.dumpsFields : List (String × Json) → String
  | [] => ""
  | [f] => "\"" ++ f.1 ++ "\": " ++ Json.dumps f.2
  | f :: rest => "\"" ++ f.1 ++ "\": " ++ Json.dumps f.2 ++ ", " ++ Json.dumpsFields rest

end

/-- Failures delivered through a caller's handle, mirroring the
exception classes of `src/pelicide/runner.py`: `RunnerException(data)`
is set for a `-` reply (line 64) and `RunnerExitedException()` is set on
session termination (line 75). -/
inductive RunnerError where
  | runnerException (payload : Json)
  | runnerExitedException
deriving DecidableEq

/-- An asyncio future as used for result delivery: a single-assignment
slot.  `cancelled` is the state after the awaiting caller cancelled its
`command()` call while the future was still pending. -/
inductive Fut where
  | pending
  | cancelled
  | fulfilled (v : Json)
  | failed (e : RunnerError)
deriving DecidableEq

/-- Uncaught Python exceptions that steer control flow in
`RunnerProcess.run`: `pending.pop` on an absent key raises `KeyError`
(line 57), and `set_result`/`set_exception` on a future that is already
done (for example cancelled) raises `InvalidStateError`. -/
inductive PyErr where
  | keyError
  | invalidState
deriving DecidableEq

/-- One inbound reply line `<id> <tag> <json>` after the split and
decode performed at lines 56-59 of `runner.py`: `success` is the
comparison `result == b"+"`. -/
structure ReplyLine where
  id : Nat
  success : Bool
  payload : Json
deriving DecidableEq

/-- The outcome a reply line assigns to its caller's future:
`set_result(data)` for a `+` tag, `set_exception(RunnerException(data))`
for a `-` tag (lines 61-64 of `runner.py`). -/
def decodeReply (line : ReplyLine) : Fut :=
  if line.success then Fut.fulfilled line.payload
  else Fut.failed (RunnerError.runnerException line.payload)

/-- Lookup in an association list used as the Python dict `pending`
(first match; keys are unique in every reachable state). -/
def lookupAssoc (k : Nat) : List (Nat × Fut) → Option Fut
  | [] => none
  | p :: rest => if p.1 = k then some p.2 else lookupAssoc k rest

/-- `dict.pop(k)`: returns the mapped value and the remaining entries,
or `none` (Python: raises `KeyError`) when the key is absent. -/
def popAssoc (k : Nat) : List (Nat × Fut) → Option (Fut × List (Nat × Fut))
  | [] => none
  | (i, f) :: rest =>
    if i = k then some (f, rest)
    else
      match popAssoc k rest with
      | none => none
      | some (g, rest') => some (g, (i, f) :: rest')

/-- The mutable state of one worker session owned by
`RunnerProcess.run`: `table` is the `pending` dict still holding
unresolved correlation IDs, and `done` records the futures already
popped from the dict together with the state they were left in (in
Python those objects live on with their callers). -/
structure MuxState where
  table : List (Nat × Fut)
  done : List (Nat × Fut)
deriving DecidableEq

/-- The initial pending table of `RunnerProcess.run` (line 35):
`pending = {0: settings_future}` — correlation ID 0 is reserved for the
implicit initial ready reply. -/
def RunnerProcess.initialState : MuxState :=
  ⟨[(0, Fut.pending)], []⟩

/-- One iteration of the reader activity body (lines 56-64 of
`runner.py`): split the line, pop the correlation ID from `pending`, and
resolve the future.  Popping an absent ID raises `KeyError`; resolving a
future that is no longer pending (such as one cancelled by its caller)
raises `InvalidStateError`.  Either exception escapes the iteration. -/
def result_reader_step (st : MuxState) (line : ReplyLine) : MuxState × Option PyErr :=
  match popAssoc line.id st.table with
  | none => (st, some PyErr.keyError)
  | some (f, table') =>
    match f with
    | Fut.pending =>
      (⟨table', st.done ++ [(line.id, decodeReply line)]⟩, none)
    | _ =>
      (⟨table', st.done ++ [(line.id, f)]⟩, some PyErr.invalidState)

/-- The reader activity (`result_reader`, lines 52-64): consume reply
lines until end-of-stream (the end of the list) or until an iteration
raises, in which case the exception propagates and no further line is
read. -/
def result_reader : MuxState → List ReplyLine → MuxState × Option PyErr
  | st, [] => (st, none)
  | st, line :: rest =>
    match result_reader_step st line with
    | (st', none) => result_reader st' rest
    | (st', some e) => (st', some e)

/-- The termination loop of `RunnerProcess.run` (lines 74-75): every
entry still in `pending` gets `set_exception(RunnerExitedException())`,
in table order.  `set_exception` on a future that is already done raises
`InvalidStateError`, stopping the loop there. -/
def terminate_pending : List (Nat × Fut) → List (Nat × Fut) × Option PyErr
  | [] => ([], none)
  | (i, Fut.pending) :: rest =>
    let r := terminate_pending rest
    ((i, Fut.failed RunnerError.runnerExitedException) :: r.1, r.2)
  | (i, f) :: rest => ((i, f) :: rest, some PyErr.invalidState)

/-- `RunnerProcess.run` (lines 34-75) viewed from the reply stream: run
the reader over the lines the subprocess emits; if the reader returns
normally (end-of-stream), fail every still-pending entry with
`RunnerExitedException`.  Only `asyncio.CancelledError` is caught around
the reader (lines 67-70), so a `KeyError` or `InvalidStateError` raised
inside it propagates out of `run` and the termination loop never
executes. -/
def RunnerProcess.run (st : MuxState) (lines : List ReplyLine) : MuxState × Option PyErr :=
  match result_reader st lines with
  | (st', none) =>
    let r := terminate_pending st'.table
    (⟨r.1, st'.done⟩, r.2)
  | (st', some e) => (st', some e)

/-- The state of the future registered for correlation ID `i`, whether
it still sits in the pending table or has already been popped. -/
def futureOf (st : MuxState) (i : Nat) : Option Fut :=
  match lookupAssoc i st.table with
  | some f => some f
  | none => lookupAssoc i st.done

/-- `Future.cancel()` semantics: a pending future becomes cancelled,
a completed future is unchanged. -/
def cancelFut : Fut → Fut
  | Fut.pending => Fut.cancelled
  | f => f

/-- A caller cancelling its own `command()` await while the reply is
outstanding: the future registered under its correlation ID is
cancelled; nothing else in the session (other entries, the written
command) is touched. -/
def cancelCaller (st : MuxState) (i : Nat) : MuxState :=
  ⟨st.table.map (fun p => if p.1 = i then (p.1, cancelFut p.2) else p), st.done⟩

/-- The writer activity `command_writer` (lines 43-50 of `runner.py`):
`request_id` starts at 0 and is incremented before each queue item is
taken, so the submissions dequeued in FIFO order are written with
correlation IDs `request_id+1, request_id+2, ...`.  Each written line is
`(id, command, args_json)`. -/
def command_writer (request_id : Nat) : List (String × String) → List (Nat × String × String)
  | [] => []
  | (c, a) :: rest => (request_id + 1, c, a) :: command_writer (request_id + 1) rest

/-- The queue capacity fixed in `RunnerProcess.__init__` (line 28):
`self.queue = asyncio.Queue(1)`. -/
def RunnerProcess.queueMaxsize : Nat := 1

/-- `asyncio.Queue.put` against capacity `RunnerProcess.queueMaxsize`:
completes (appending the item) only while the queue is below capacity;
on a full queue the putter suspends and nothing is enqueued (`none`). -/
def queue_put {α : Type} (items : List α) (x : α) : Option (List α) :=
  if items.length < RunnerProcess.queueMaxsize then some (items ++ [x]) else none

/-- `asyncio.Queue.get`: completes with the oldest item, or suspends
(`none`) on an empty queue. -/
def queue_get {α : Type} (items : List α) : Option (α × List α) :=
  match items with
  | [] => none
  | x :: rest => some (x, rest)

/-- Queue contents reachable from the empty queue of a fresh
`RunnerProcess` through completed `put` (in `__call__`, line 80) and
`get` (in `command_writer`, line 47) operations. -/
inductive QueueReachable {α : Type} : List α → Prop where
  | empty : QueueReachable []
  | enq (items : List α) (x : α) (items' : List α) :
      QueueReachable items → queue_put items x = some items' → QueueReachable items'
  | deq (items : List α) (x : α) (items' : List α) :
      QueueReachable items → queue_get items = some (x, items') → QueueReachable items'

/-- The lifecycle manager state: the class attributes of `Runner`
(lines 85-87 of `runner.py`).  `process` and `processTask` model whether
`self.process` / `self.process_task` are set. -/
structure RunnerSt where
  process : Option Unit
  processTask : Option Unit
  settings : Option Json
deriving DecidableEq

/-- The class-level defaults of `Runner`: everything `None`. -/
def Runner.stopped : RunnerSt := ⟨none, none, none⟩

/-- The manager state during the Starting window: `Runner.start`
assigns `self.process` (line 104) and `self.process_task` (line 108)
and only then suspends on `self.settings = await f` (line 110), so both
attributes are already set while the ready reply is awaited. -/
def Runner.start_begun (st : RunnerSt) : RunnerSt :=
  ⟨some (), some (), st.settings⟩

/-- What a `Runner.command` invocation does before any suspension
(lines 137-141): with `self.process` set it forwards to
`RunnerProcess.__call__`, which serializes the arguments with
`json.dumps` and enqueues; with `self.process` unset it raises
`RunnerExitedException` immediately, performing no I/O. -/
inductive CommandAttempt where
  | notRunning
  | forwarded (cmd : String) (argsJson : String)
deriving DecidableEq

/-- `Runner.command` (lines 137-141 of `runner.py`). -/
def Runner.command (st : RunnerSt) (cmd : String) (args : Json) : CommandAttempt :=
  match st.process with
  | some _ => CommandAttempt.forwarded cmd (Json.dumps args)
  | none => CommandAttempt.notRunning

/-- The externally visible steps `Runner.stop` and `Runner.restart`
can take: cancelling the session task, awaiting its teardown, sending
the explicit quit command via `self.command`, and launching a fresh
session via `self.start`. -/
inductive TeardownAction where
  | cancelSession
  | awaitSession
  | sendQuit
  | startSession
deriving DecidableEq

/-- `Runner.stop` (lines 112-116): when `self.process_task` is set it
cancels the task and awaits it — the task's done callback
`handle_process_exit` (lines 130-131) then clears `self.process` and
`self.process_task`; when no task exists the call returns without doing
anything.  `self.settings` is never touched. -/
def Runner.stop (st : RunnerSt) : RunnerSt × List TeardownAction :=
  match st.processTask with
  | some _ =>
    (⟨none, none, st.settings⟩, [TeardownAction.cancelSession, TeardownAction.awaitSession])
  | none => (st, [])

/-- The action sequence of `Runner.restart` (lines 143-152): send
`quit` through the live session if one exists, await the session task if
one exists, then start a fresh session. -/
def Runner.restart_actions (st : RunnerSt) : List TeardownAction :=
  (match st.process with
   | some _ => [TeardownAction.sendQuit]
   | none => []) ++
  (match st.processTask with
   | some _ => [TeardownAction.awaitSession]
   | none => []) ++
  [TeardownAction.startSession]

/-- Decidable equality for the modelled effect outcomes. -/
instance exceptStringUnitDecEq : DecidableEq (Except String Unit) := fun a b =>
  match a, b with
  | Except.ok (), Except.ok () => isTrue rfl
  | Except.ok (), Except.error _ => isFalse (fun h => Except.noConfusion h)
  | Except.error _, Except.ok () => isFalse (fun h => Except.noConfusion h)
  | Except.error x, Except.error y =>
    if h : x = y then isTrue (h ▸ rfl)
    else isFalse (fun he => h (Except.error.inj he))

/-- The effectful collaborators of one registered site as `cleanup_site`
sees them: the behavior of `site.runner.stop()` and of
`site.temp_dir.cleanup()` — each either returns or raises (carrying the
exception text). -/
structure SiteEffects where
  stopResult : Except String Unit
  cleanupResult : Except String Unit
deriving DecidableEq

/-- Whether an effectful call returned normally. -/
def exceptSucceeded : Except String Unit → Bool
  | Except.ok _ => true
  | Except.error _ => false

/-- What one `cleanup_site` invocation did for its site (lines 132-141
of `sites.py`): which of the two calls completed and which failures were
logged. -/
structure CleanupTrace where
  runnerStopped : Bool
  stopFailureLogged : Bool
  dirRemoved : Bool
  dirFailureLogged : Bool
deriving DecidableEq

/-- `cleanup_site` (lines 132-141 of `sites.py`): `site.runner.stop()`
inside a catch-all that logs, then `site.temp_dir.cleanup()` inside a
second catch-all that logs.  The function itself never raises, and the
cleanup call is reached whatever the stop call did. -/
def cleanup_site (s : SiteEffects) : CleanupTrace :=
  let stopPart :=
    match s.stopResult with
    | Except.ok _ => (true, false)
    | Except.error _ => (false, true)
  let dirPart :=
    match s.cleanupResult with
    | Except.ok _ => (true, false)
    | Except.error _ => (false, true)
  ⟨stopPart.1, stopPart.2, dirPart.1, dirPart.2⟩

/-- The teardown phase of `load_sites` (lines 156-157 of `sites.py`):
`for site in sites.values(): await cleanup_site(site)` — every
registered site is visited in order. -/
def load_sites_teardown (sites : List SiteEffects) : List CleanupTrace :=
  sites.map cleanup_site

/-- The domain collaborators the worker's dispatch loop calls into
(`pelican-runner.py`): the pelican engine behind `extensions`, `scan`,
`build`, `render` and `slugify`.  These are external per the protocol
boundary; each handler yields either a success payload or the text of
the exception the engine raised. -/
structure DomainOps where
  extensionsList : List String
  scanResult : Except String Json
  buildResult : Json → Except String Json
  renderResult : Json → Except String Json
  slugResult : Json → String

/-- The worker's mutable state: the pelican `settings` dict (updated
by the `setting` command) and the domain collaborators. -/
structure WorkerState where
  settings : List (Json × Json)
  ops : DomainOps

/-- Python dict lookup on the settings dict. -/
def dictGet : List (Json × Json) → Json → Option Json
  | [], _ => none
  | p :: rest, k => if p.1 = k then some p.2 else dictGet rest k

/-- Python dict assignment on the settings dict: replace the existing
binding or append a new one. -/
def dictSet : List (Json × Json) → Json → Json → List (Json × Json)
  | [], k, v => [(k, v)]
  | p :: rest, k, v => if p.1 = k then (k, v) :: rest else p :: dictSet rest k v

/-- Side effects the dispatch loop performs besides replying:
`os.system(cmdline)` in the `exec` branch (line 318 of
`pelican-runner.py`). -/
inductive Effect where
  | shellSystem (cmdline : String)
deriving DecidableEq

/-- A reply line the worker writes: `reply` (lines 173-178) emits
`<id> + <json>` through `success` and `<id> - <json>` through `fail`,
with the correlation ID echoed verbatim as the string it was read as. -/
inductive Reply where
  | success (cmd_id : String) (payload : Json)
  | failure (cmd_id : String) (payload : Json)
deriving DecidableEq

/-- How one dispatch iteration leaves the `while True` loop of `run`:
`next` continues, `halt` is the `break` of the `quit` branch, and
`crashed` is an uncaught exception terminating `run` itself. -/
inductive LoopControl where
  | next
  | halt
  | crashed (msg : String)
deriving DecidableEq

/-- The result of dispatching one parsed command line. -/
structure StepResult where
  state : WorkerState
  replies : List Reply
  effects : List Effect
  control : LoopControl

/-- Python `x[0]` on a decoded JSON value, as the `exec` and `slugify`
branches use it: first element of a list, first character of a string;
anything else raises. -/
def pyIndex0 : Json → Except String Json
  | Json.arr [] => Except.error "IndexError: list index out of range"
  | Json.arr (x :: _) => Except.ok x
  | Json.str s =>
    if s.length = 0 then Except.error "IndexError: string index out of range"
    else Except.ok (Json.str (s.take 1))
  | _ => Except.error "TypeError: object is not subscriptable"

/-- Python `"%s" % v` on a decoded JSON value.  For a string it is the
string itself (the only case the claims exercise); other values are
approximated by their serialized form. -/
def pythonStr : Json → String
  | Json.str s => s
  | Json.null => "None"
  | Json.bool true => "True"
  | Json.bool false => "False"
  | j => Json.dumps j

/-- One iteration of the worker dispatch loop (lines 242-324 of
`pelican-runner.py`), after the line was split into
`cmd_id, cmd, args` and `args` was decoded.  Branches appear in source
order; `quit` replies and breaks; `scan`, `build`, `render` and `exec`
wrap their work in try/except and reply `-` with the exception text on
failure; `setting` and `slugify` have no try/except, so an exception
there crashes the loop; an unrecognized command replies
`- "No such command (<cmd>)"` and the loop continues. -/
def run_dispatch (w : WorkerState) (cmd_id : String) (cmd : String) (args : Json) : StepResult :=
  if cmd = "quit" then
    ⟨w, [Reply.success cmd_id Json.null], [], LoopControl.halt⟩
  else if cmd = "setting" then
    match args with
    | Json.arr xs =>
      let w' :=
        match xs with
        | key :: value :: _ => { w with settings := dictSet w.settings key value }
        | _ => w
      match xs with
      | key :: _ =>
        match dictGet w'.settings key with
        | some v => ⟨w', [Reply.success cmd_id v], [], LoopControl.next⟩
        | none => ⟨w', [], [], LoopControl.crashed "KeyError"⟩
      | [] => ⟨w', [], [], LoopControl.crashed "IndexError"⟩
    | _ => ⟨w, [], [], LoopControl.crashed "TypeError"⟩
  else if cmd = "extensions" then
    ⟨w, [Reply.success cmd_id (Json.arr (w.ops.extensionsList.map Json.str))], [],
      LoopControl.next⟩
  else if cmd = "scan" then
    match w.ops.scanResult with
    | Except.ok payload => ⟨w, [Reply.success cmd_id payload], [], LoopControl.next⟩
    | Except.error e => ⟨w, [Reply.failure cmd_id (Json.str e)], [], LoopControl.next⟩
  else if cmd = "build" then
    match w.ops.buildResult args with
    | Except.ok payload => ⟨w, [Reply.success cmd_id payload], [], LoopControl.next⟩
    | Except.error e => ⟨w, [Reply.failure cmd_id (Json.str e)], [], LoopControl.next⟩
  else if cmd = "render" then
    match w.ops.renderResult args with
    | Except.ok payload => ⟨w, [Reply.success cmd_id payload], [], LoopControl.next⟩
    | Except.error e => ⟨w, [Reply.failure cmd_id (Json.str e)], [], LoopControl.next⟩
  else if cmd = "slugify" then
    match pyIndex0 args with
    | Except.ok a =>
      ⟨w, [Reply.success cmd_id (Json.obj [("slug", Json.str (w.ops.slugResult a))])], [],
        LoopControl.next⟩
    | Except.error e => ⟨w, [], [], LoopControl.crashed e⟩
  else if cmd = "exec" then
    match pyIndex0 args with
    | Except.ok v =>
      ⟨w, [Reply.success cmd_id Json.null],
        [Effect.shellSystem (pythonStr v ++ " 1>&2")], LoopControl.next⟩
    | Except.error e => ⟨w, [Reply.failure cmd_id (Json.str e)], [], LoopControl.next⟩
  else
    ⟨w, [Reply.failure cmd_id (Json.str ("No such command (" ++ cmd ++ ")"))], [],
      LoopControl.next⟩

/-- The worker's `while True` read loop (lines 233-324) over the
already-parsed command lines it receives before end-of-input: each
iteration dispatches one line, and the loop goes on exactly while the
iteration ends with `next`. -/
def worker_loop (w : WorkerState) : List (String × String × Json) → List Reply × List Effect
  | [] => ([], [])
  | (cmd_id, cmd, args) :: rest =>
    let r := run_dispatch w cmd_id cmd args
    match r.control with
    | LoopControl.next =>
      let t := worker_loop r.state rest
      (r.replies ++ t.1, r.effects ++ t.2)
    | _ => (r.replies, r.effects)

/-- A key absent from the key list is not found. -/
theorem lookupAssoc_eq_none (k : Nat) :
    ∀ (t : List (Nat × Fut)), lookupAssoc k t = none ↔ k ∉ t.map Prod.fst
  | [] => by simp [lookupAssoc]
  | p :: rest => by
    simp only [lookupAssoc, List.map_cons, List.mem_cons]
    by_cases h : p.1 = k
    · simp [h]
    · simp only [if_neg h, lookupAssoc_eq_none k rest]
      constructor
      · intro hr hor
        rcases hor with hor | hor
        · exact h hor.symm
        · exact hr hor
      · intro hor hr
        exact hor (Or.inr hr)

/-- A found binding is a member of the list. -/
theorem lookupAssoc_mem (k : Nat) :
    ∀ (t : List (Nat × Fut)) (f : Fut), lookupAssoc k t = some f → (k, f) ∈ t
  | [], f, h => by simp [lookupAssoc] at h
  | p :: rest, f, h => by
    obtain ⟨i, g⟩ := p
    by_cases hp : i = k
    · subst hp
      simp only [lookupAssoc, if_pos rfl] at h
      cases h
      exact List.mem_cons_self _ _
    · simp only [lookupAssoc, if_neg hp] at h
      exact List.mem_cons_of_mem _ (lookupAssoc_mem k rest f h)

/-- With unique keys, every member binding is the one found. -/
theorem lookupAssoc_of_mem_nodup :
    ∀ (t : List (Nat × Fut)), (t.map Prod.fst).Nodup →
      ∀ (k : Nat) (f : Fut), (k, f) ∈ t → lookupAssoc k t = some f
  | [], _, k, f, h => by simp at h
  | p :: rest, hn, k, f, h => by
    simp only [List.map_cons, List.nodup_cons] at hn
    rcases List.mem_cons.1 h with h1 | h1
    · cases h1
      simp [lookupAssoc]
    · by_cases hp : p.1 = k
      · exfalso
        apply hn.1
        rw [hp]
        exact List.mem_map.2 ⟨(k, f), h1, rfl⟩
      · simp only [lookupAssoc, if_neg hp]
        exact lookupAssoc_of_mem_nodup rest hn.2 k f h1

/-- A key present in the key list is found. -/
theorem exists_lookupAssoc (k : Nat) :
    ∀ (t : List (Nat × Fut)), k ∈ t.map Prod.fst → ∃ f, lookupAssoc k t = some f := by
  intro t hk
  cases hl : lookupAssoc k t with
  | some f => exact ⟨f, rfl⟩
  | none => exact absurd hk ((lookupAssoc_eq_none k t).1 hl)

/-- Lookup through an append: a binding found on the left survives. -/
theorem lookupAssoc_append_left (k : Nat) :
    ∀ (t₁ t₂ : List (Nat × Fut)) (f : Fut),
      lookupAssoc k t₁ = some f → lookupAssoc k (t₁ ++ t₂) = some f
  | [], _, f, h => by simp [lookupAssoc] at h
  | p :: rest, t₂, f, h => by
    by_cases hp : p.1 = k
    · simp_all [lookupAssoc, if_pos hp]
    · simp only [lookupAssoc, if_neg hp] at h
      simp only [List.cons_append, lookupAssoc, if_neg hp]
      exact lookupAssoc_append_left k rest t₂ f h

/-- Lookup through an append: with the key absent on the left, lookup
continues on the right. -/
theorem lookupAssoc_append_right (k : Nat) :
    ∀ (t₁ t₂ : List (Nat × Fut)),
      lookupAssoc k t₁ = none → lookupAssoc k (t₁ ++ t₂) = lookupAssoc k t₂
  | [], t₂, _ => rfl
  | p :: rest, t₂, h => by
    by_cases hp : p.1 = k
    · simp [lookupAssoc, if_pos hp] at h
    · simp only [lookupAssoc, if_neg hp] at h
      simp only [List.cons_append, lookupAssoc, if_neg hp]
      exact lookupAssoc_append_right k rest t₂ h

/-- `dict.pop` on an absent key raises: `popAssoc` returns `none`. -/
theorem popAssoc_eq_none (k : Nat) :
    ∀ (t : List (Nat × Fut)), k ∉ t.map Prod.fst → popAssoc k t = none
  | [], _ => rfl
  | (i, f) :: rest, h => by
    simp only [List.map_cons, List.mem_cons] at h
    push_neg at h
    have hne : ¬ i = k := fun he => h.1 he.symm
    simp only [popAssoc, if_neg hne, popAssoc_eq_none k rest h.2]

/-- `dict.pop` on a present key succeeds. -/
theorem popAssoc_of_mem_keys (k : Nat) :
    ∀ (t : List (Nat × Fut)), k ∈ t.map Prod.fst →
      ∃ f t', popAssoc k t = some (f, t')
  | [], h => by simp at h
  | (i, f) :: rest, h => by
    by_cases hp : i = k
    · exact ⟨f, rest, by simp [popAssoc, if_pos hp]⟩
    · simp only [List.map_cons, List.mem_cons] at h
      rcases h with h | h
      · exact absurd h.symm hp
      · obtain ⟨g, rest', hr⟩ := popAssoc_of_mem_keys k rest h
        exact ⟨g, (i, f) :: rest', by simp [popAssoc, if_neg hp, hr]⟩

/-- `dict.pop` returns the binding found by lookup. -/
theorem popAssoc_of_lookup (k : Nat) :
    ∀ (t : List (Nat × Fut)) (f : Fut), lookupAssoc k t = some f →
      ∃ t', popAssoc k t = some (f, t')
  | [], f, h => by simp [lookupAssoc] at h
  | (i, g) :: rest, f, h => by
    by_cases hp : i = k
    · simp only [lookupAssoc, if_pos hp] at h
      cases h
      exact ⟨rest, by simp [popAssoc, if_pos hp]⟩
    · simp only [lookupAssoc, if_neg hp] at h
      obtain ⟨rest', hr⟩ := popAssoc_of_lookup k rest f h
      exact ⟨(i, g) :: rest', by simp [popAssoc, if_neg hp, hr]⟩

/-- What `dict.pop` leaves behind when keys are unique: the popped
binding was a member, the remainder is a sub-collection preserving every
other binding, and the popped key is gone. -/
theorem popAssoc_spec (k : Nat) :
    ∀ (t : List (Nat × Fut)) (f : Fut) (t' : List (Nat × Fut)),
      (t.map Prod.fst).Nodup → popAssoc k t = some (f, t') →
      (k, f) ∈ t ∧ (∀ p, p ∈ t' → p ∈ t) ∧
      (t'.map Prod.fst).Sublist (t.map Prod.fst) ∧
      (∀ p, p ∈ t → p.1 ≠ k → p ∈ t') ∧ k ∉ t'.map Prod.fst
  | [], f, t', _, h => by simp [popAssoc] at h
  | (i, g) :: rest, f, t', hn, h => by
    simp only [List.map_cons, List.nodup_cons] at hn
    by_cases hp : i = k
    · simp only [popAssoc, if_pos hp] at h
      cases h
      subst hp
      refine ⟨List.mem_cons_self _ _, fun p hp => List.mem_cons_of_mem _ hp, ?_, ?_, ?_⟩
      · exact List.sublist_cons_self i (List.map Prod.fst rest)
      · intro p hp hne
        rcases List.mem_cons.1 hp with h1 | h1
        · exact absurd (congrArg Prod.fst h1) hne
        · exact h1
      · exact hn.1
    · simp only [popAssoc, if_neg hp] at h
      cases hr : popAssoc k rest with
      | none => rw [hr] at h; cases h
      | some pr =>
        rw [hr] at h
        obtain ⟨g2, rest2⟩ := pr
        cases h
        obtain ⟨hmem, hsub, hsl, hpres, hout⟩ := popAssoc_spec k rest f rest2 hn.2 hr
        refine ⟨List.mem_cons_of_mem _ hmem, ?_, ?_, ?_, ?_⟩
        · intro p hp
          rcases List.mem_cons.1 hp with h1 | h1
          · exact h1 ▸ List.mem_cons_self _ _
          · exact List.mem_cons_of_mem _ (hsub p h1)
        · simpa using hsl.cons₂ i
        · intro p hp hne
          rcases List.mem_cons.1 hp with h1 | h1
          · exact h1 ▸ List.mem_cons_self _ _
          · exact List.mem_cons_of_mem _ (hpres p h1 hne)
        · simp only [List.map_cons, List.mem_cons]
          rintro (h1 | h1)
          · exact hp h1.symm
          · exact hout h1

/-- Invariant of the reader activity over a batch of reply lines with
pairwise distinct correlation IDs, each registered in the pending table
with a still-pending future, starting from a record of already-popped
futures that shares no ID with the table: the reader consumes every line
without raising, the table only shrinks, popped futures keep the outcome
they were resolved with, each line's future receives exactly that line's
decoded outcome, and entries no line refers to stay in the table
untouched. -/
theorem result_reader_spec :
    ∀ (lines : List ReplyLine) (st : MuxState),
      (st.table.map Prod.fst).Nodup →
      (∀ p, p ∈ st.table → p.2 = Fut.pending) →
      (lines.map ReplyLine.id).Nodup →
      (∀ l, l ∈ lines → l.id ∈ st.table.map Prod.fst) →
      (∀ i, i ∈ st.table.map Prod.fst → lookupAssoc i st.done = none) →
      (result_reader st lines).2 = none ∧
      (∀ p, p ∈ (result_reader st lines).1.table → p ∈ st.table) ∧
      ((result_reader st lines).1.table.map Prod.fst).Sublist (st.table.map Prod.fst) ∧
      (∀ i f, lookupAssoc i st.done = some f →
        lookupAssoc i (result_reader st lines).1.done = some f) ∧
      (∀ l, l ∈ lines → l.id ∉ (result_reader st lines).1.table.map Prod.fst ∧
        lookupAssoc l.id (result_reader st lines).1.done = some (decodeReply l)) ∧
      (∀ p, p ∈ st.table → p.1 ∉ lines.map ReplyLine.id →
        p ∈ (result_reader st lines).1.table)
  | [], st, h1, h2, h3, h4, h5 =>
    ⟨rfl, fun p hp => hp, List.Sublist.refl _, fun i f h => h,
      fun l hl => absurd hl (List.not_mem_nil l), fun p hp _ => hp⟩
  | line :: rest, st, h1, h2, h3, h4, h5 => by
    have hid : line.id ∈ st.table.map Prod.fst := h4 line (List.mem_cons_self _ _)
    obtain ⟨f, t', hpop⟩ := popAssoc_of_mem_keys line.id st.table hid
    obtain ⟨hmem, hsub, hsl, hpres, hout⟩ := popAssoc_spec line.id st.table f t' h1 hpop
    have hf : f = Fut.pending := h2 (line.id, f) hmem
    subst hf
    have hstep : result_reader_step st line =
        (⟨t', st.done ++ [(line.id, decodeReply line)]⟩, none) := by
      simp [result_reader_step, hpop]
    have hrr : result_reader st (line :: rest) =
        result_reader ⟨t', st.done ++ [(line.id, decodeReply line)]⟩ rest := by
      simp [result_reader, hstep]
    rw [List.map_cons] at h3
    have hnotin : line.id ∉ rest.map ReplyLine.id := (List.nodup_cons.1 h3).1
    have h3' : (rest.map ReplyLine.id).Nodup := (List.nodup_cons.1 h3).2
    have h1' : (t'.map Prod.fst).Nodup := List.Sublist.nodup hsl h1
    have h2' : ∀ p, p ∈ t' → p.2 = Fut.pending := fun p hp => h2 p (hsub p hp)
    have h4' : ∀ l, l ∈ rest → l.id ∈ t'.map Prod.fst := by
      intro l hl
      have hne : l.id ≠ line.id := by
        intro he
        exact hnotin (he ▸ List.mem_map_of_mem ReplyLine.id hl)
      have hmem0 : l.id ∈ st.table.map Prod.fst := h4 l (List.mem_cons_of_mem _ hl)
      obtain ⟨g, hg⟩ := exists_lookupAssoc l.id st.table hmem0
      have hmem1 : (l.id, g) ∈ st.table := lookupAssoc_mem l.id st.table g hg
      exact List.mem_map.2 ⟨(l.id, g), hpres (l.id, g) hmem1 hne, rfl⟩
    have h5' : ∀ i, i ∈ t'.map Prod.fst →
        lookupAssoc i (st.done ++ [(line.id, decodeReply line)]) = none := by
      intro i hi
      have hi0 : i ∈ st.table.map Prod.fst := hsl.subset hi
      have hne : line.id ≠ i := fun he => hout (he ▸ hi)
      rw [lookupAssoc_append_right i st.done _ (h5 i hi0)]
      simp [lookupAssoc, if_neg hne]
    obtain ⟨c1, c2, c3, c4, c5, c6⟩ :=
      result_reader_spec rest ⟨t', st.done ++ [(line.id, decodeReply line)]⟩
        h1' h2' h3' h4' h5'
    rw [hrr]
    refine ⟨c1, ?_, c3.trans hsl, ?_, ?_, ?_⟩
    · intro p hp
      exact hsub p (c2 p hp)
    · intro i g hg
      refine c4 i g ?_
      exact lookupAssoc_append_left i st.done _ g hg
    · intro l hl
      rcases List.mem_cons.1 hl with h0 | h0
      · subst h0
        constructor
        · intro hbad
          exact hout (c3.subset hbad)
        · refine c4 l.id (decodeReply l) ?_
          rw [lookupAssoc_append_right l.id st.done _ (h5 l.id hid)]
          simp [lookupAssoc]
      · exact c5 l h0
    · intro p hp hnm
      simp only [List.map_cons, List.mem_cons] at hnm
      push_neg at hnm
      exact c6 p (hpres p hp hnm.1) hnm.2

/-- When every table entry is still pending, the termination loop of
`RunnerProcess.run` fails each of them with `RunnerExitedException` and
completes without raising. -/
theorem terminate_pending_all :
    ∀ (t : List (Nat × Fut)), (∀ p, p ∈ t → p.2 = Fut.pending) →
      terminate_pending t =
        (t.map (fun p => (p.1, Fut.failed RunnerError.runnerExitedException)), none)
  | [], _ => rfl
  | (i, f) :: rest, h => by
    have hf : f = Fut.pending := h (i, f) (List.mem_cons_self _ _)
    subst hf
    simp only [terminate_pending, List.map_cons]
    rw [terminate_pending_all rest (fun p hp => h p (List.mem_cons_of_mem _ hp))]

/-- When the reader reaches end-of-stream without raising, `run`
proceeds to the termination loop over the surviving table. -/
theorem run_eq_of_reader_ok (st : MuxState) (lines : List ReplyLine)
    (h : (result_reader st lines).2 = none) :
    RunnerProcess.run st lines =
      (⟨(terminate_pending (result_reader st lines).1.table).1,
        (result_reader st lines).1.done⟩,
       (terminate_pending (result_reader st lines).1.table).2) := by
  rcases hE : result_reader st lines with ⟨st', e⟩
  rw [hE] at h
  simp only at h
  subst h
  simp [RunnerProcess.run, hE]

/-- C1: on one live session, every reply line read by the reader
activity is delivered to exactly the caller whose correlation ID equals
the reply's ID, whatever order the replies arrive in: a `+` line
fulfills that caller's future with the decoded payload, a `-` line fails
it with `RunnerException` carrying the decoded error payload, and the
future of every ID no line refers to is left untouched. -/
theorem c1_reply_routing (table : List (Nat × Fut)) (lines : List ReplyLine)
    (h1 : (table.map Prod.fst).Nodup)
    (h2 : ∀ p, p ∈ table → p.2 = Fut.pending)
    (h3 : (lines.map ReplyLine.id).Nodup)
    (h4 : ∀ l, l ∈ lines → l.id ∈ table.map Prod.fst) :
    (result_reader ⟨table, []⟩ lines).2 = none ∧
    (∀ l, l ∈ lines →
      futureOf (result_reader ⟨table, []⟩ lines).1 l.id = some (decodeReply l)) ∧
    (∀ i, i ∈ table.map Prod.fst → i ∉ lines.map ReplyLine.id →
      futureOf (result_reader ⟨table, []⟩ lines).1 i = some Fut.pending) := by
  have h5 : ∀ i, i ∈ (MuxState.mk table []).table.map Prod.fst →
      lookupAssoc i (MuxState.mk table []).done = none := fun i _ => rfl
  obtain ⟨c1, c2, c3, c4, c5, c6⟩ := result_reader_spec lines ⟨table, []⟩ h1 h2 h3 h4 h5
  refine ⟨c1, ?_, ?_⟩
  · intro l hl
    obtain ⟨hnot, hdone⟩ := c5 l hl
    have hnone : lookupAssoc l.id (result_reader ⟨table, []⟩ lines).1.table = none :=
      (lookupAssoc_eq_none _ _).2 hnot
    simp [futureOf, hnone, hdone]
  · intro i hi hnm
    obtain ⟨g, hg⟩ := exists_lookupAssoc i table hi
    have hmem : (i, g) ∈ table := lookupAssoc_mem i table g hg
    have hpend : g = Fut.pending := h2 (i, g) hmem
    have hin : (i, g) ∈ (result_reader ⟨table, []⟩ lines).1.table := c6 (i, g) hmem hnm
    have hnodup : ((result_reader ⟨table, []⟩ lines).1.table.map Prod.fst).Nodup :=
      List.Sublist.nodup c3 h1
    have hlook := lookupAssoc_of_mem_nodup _ hnodup i g hin
    simp [futureOf, hlook, hpend]

/-- Witness for C1, the spec's scenario: three commands outstanding,
the worker replies to correlation ID 3 with a `-` line carrying the
string payload boom, and the caller of the 3rd command receives
`RunnerException` carrying boom. -/
theorem c1_reply_routing_witness :
    futureOf (result_reader ⟨[(1, Fut.pending), (2, Fut.pending), (3, Fut.pending)], []⟩
        [⟨3, false, Json.str "boom"⟩]).1 3 =
      some (Fut.failed (RunnerError.runnerException (Json.str "boom"))) :=
  (c1_reply_routing [(1, Fut.pending), (2, Fut.pending), (3, Fut.pending)]
      [⟨3, false, Json.str "boom"⟩] (by decide) (by decide) (by decide) (by decide)).2.1
    ⟨3, false, Json.str "boom"⟩ (List.mem_singleton.mpr rfl)

/-- The termination loop iterates the surviving table in order: when
it reaches an entry whose future is no longer pending (for example
cancelled by its caller), `set_exception` raises `InvalidStateError` —
the entries before it have been failed with `RunnerExitedException`,
while that entry and every entry after it are left exactly as they
were. -/
theorem terminate_pending_cancelled :
    ∀ (pre : List (Nat × Fut)) (i : Nat) (post : List (Nat × Fut)),
      (∀ p, p ∈ pre → p.2 = Fut.pending) →
      terminate_pending (pre ++ (i, Fut.cancelled) :: post) =
        (pre.map (fun p => (p.1, Fut.failed RunnerError.runnerExitedException)) ++
          (i, Fut.cancelled) :: post, some PyErr.invalidState)
  | [], _, _, _ => rfl
  | (j, f) :: pre, i, post, h => by
    have hf : f = Fut.pending := h (j, f) (List.mem_cons_self _ _)
    subst hf
    simp only [List.cons_append, terminate_pending, List.map_cons, List.append_eq]
    rw [terminate_pending_cancelled pre i post
      (fun p hp => h p (List.mem_cons_of_mem _ hp))]

/-- C2 counterexample: two commands outstanding (IDs 1 and 2), the
caller of command 1 cancels its await, and the subprocess's output then
reaches end-of-stream.  The termination loop hits the cancelled future
first, `set_exception` raises `InvalidStateError`, the loop aborts, and
the entry for ID 2 — a caller still awaiting its handle — is never
resolved with `RunnerExitedException`: it stays pending forever,
contradicting the claim that all N pending entries are resolved and no
awaiting caller blocks. -/
theorem c2_counterexample :
    (RunnerProcess.run (cancelCaller ⟨[(1, Fut.pending), (2, Fut.pending)], []⟩ 1) []).2 =
      some PyErr.invalidState ∧
    futureOf
      (RunnerProcess.run (cancelCaller ⟨[(1, Fut.pending), (2, Fut.pending)], []⟩ 1)
        []).1 2 = some Fut.pending ∧
    ¬ futureOf
      (RunnerProcess.run (cancelCaller ⟨[(1, Fut.pending), (2, Fut.pending)], []⟩ 1)
        []).1 2 = some (Fut.failed RunnerError.runnerExitedException) := by decide

/-- C2 (amended): if the subprocess's output stream reaches
end-of-stream while commands are outstanding and every outstanding
entry's future is still pending (no caller has cancelled its await),
then `run` completes without raising, keeps exactly those correlation
IDs, and resolves every one of them with `RunnerExitedException`, so
none of those callers blocks.  If instead some outstanding entry's
future was cancelled, the termination loop raises `InvalidStateError`
at that entry: the entries before it (in table order) are resolved with
`RunnerExitedException`, while the cancelled entry and every entry
after it are left unresolved — a still-pending caller among them blocks
forever. -/
theorem c2_exit_semantics :
    (∀ (st : MuxState) (lines : List ReplyLine),
      (result_reader st lines).2 = none →
      (∀ p, p ∈ (result_reader st lines).1.table → p.2 = Fut.pending) →
      (RunnerProcess.run st lines).2 = none ∧
      (RunnerProcess.run st lines).1.table.map Prod.fst =
        (result_reader st lines).1.table.map Prod.fst ∧
      (∀ p, p ∈ (RunnerProcess.run st lines).1.table →
        p.2 = Fut.failed RunnerError.runnerExitedException)) ∧
    (∀ (pre : List (Nat × Fut)) (i : Nat) (post : List (Nat × Fut)),
      (∀ p, p ∈ pre → p.2 = Fut.pending) →
      terminate_pending (pre ++ (i, Fut.cancelled) :: post) =
        (pre.map (fun p => (p.1, Fut.failed RunnerError.runnerExitedException)) ++
          (i, Fut.cancelled) :: post, some PyErr.invalidState)) := by
  constructor
  · intro st lines h1 h2
    have hrun := run_eq_of_reader_ok st lines h1
    have hterm := terminate_pending_all (result_reader st lines).1.table h2
    rw [hrun, hterm]
    refine ⟨rfl, ?_, ?_⟩
    · simp [List.map_map]
    · intro p hp
      simp only [List.mem_map] at hp
      obtain ⟨q, _, hq⟩ := hp
      rw [← hq]
  · exact terminate_pending_cancelled

/-- Witness for the amended C2: two purely pending commands are both
resolved with `RunnerExitedException` at end-of-stream, while a table
whose first outstanding entry was cancelled makes the termination loop
raise and leaves the pending entry after it unresolved. -/
theorem c2_exit_semantics_witness :
    ((RunnerProcess.run ⟨[(1, Fut.pending), (2, Fut.pending)], []⟩ []).2 = none ∧
     (∀ p, p ∈ (RunnerProcess.run ⟨[(1, Fut.pending), (2, Fut.pending)], []⟩ []).1.table →
        p.2 = Fut.failed RunnerError.runnerExitedException)) ∧
    terminate_pending [(2, Fut.cancelled), (3, Fut.pending)] =
      ([(2, Fut.cancelled), (3, Fut.pending)], some PyErr.invalidState) :=
  ⟨⟨(c2_exit_semantics.1 ⟨[(1, Fut.pending), (2, Fut.pending)], []⟩ []
      (by decide) (by decide)).1,
    (c2_exit_semantics.1 ⟨[(1, Fut.pending), (2, Fut.pending)], []⟩ []
      (by decide) (by decide)).2.2⟩,
   c2_exit_semantics.2 [] 2 [(3, Fut.pending)]
     (fun p hp => absurd hp (List.not_mem_nil p))⟩

/-- C3 counterexample: with one command outstanding (correlation ID 1,
future pending), a reply line for the unknown ID 2 makes the session
terminate with a fatal `KeyError`, but the still-pending entry is NOT
resolved with `RunnerExitedException` — it stays pending, so its caller
is never woken, contradicting the claim that every still-pending entry
is resolved with a Session Terminated failure. -/
theorem c3_counterexample :
    (RunnerProcess.run ⟨[(1, Fut.pending)], []⟩ [⟨2, true, Json.null⟩]).2 =
      some PyErr.keyError ∧
    futureOf (RunnerProcess.run ⟨[(1, Fut.pending)], []⟩ [⟨2, true, Json.null⟩]).1 1 =
      some Fut.pending ∧
    ¬ futureOf (RunnerProcess.run ⟨[(1, Fut.pending)], []⟩ [⟨2, true, Json.null⟩]).1 1 =
      some (Fut.failed RunnerError.runnerExitedException) := by decide

/-- C3 (amended): a reply line whose correlation ID is not in the
pending table is surfaced as a fatal session error — `pending.pop`
raises `KeyError`, which is not caught, so the session task terminates
and no later line is read — but the still-pending entries are NOT
resolved: the uncaught exception skips the termination loop, every
future keeps the state it had, and the callers of the outstanding
commands are never woken. -/
theorem c3_unknown_id_fatal (st : MuxState) (line : ReplyLine) (rest : List ReplyLine)
    (h : line.id ∉ st.table.map Prod.fst) :
    RunnerProcess.run st (line :: rest) = (st, some PyErr.keyError) ∧
    (∀ i, futureOf (RunnerProcess.run st (line :: rest)).1 i = futureOf st i) := by
  have hpop := popAssoc_eq_none line.id st.table h
  have hstep : result_reader_step st line = (st, some PyErr.keyError) := by
    simp [result_reader_step, hpop]
  have hrr : result_reader st (line :: rest) = (st, some PyErr.keyError) := by
    simp [result_reader, hstep]
  have hrun : RunnerProcess.run st (line :: rest) = (st, some PyErr.keyError) := by
    simp [RunnerProcess.run, hrr]
  exact ⟨hrun, fun i => by rw [hrun]⟩

/-- Witness for the amended C3: concrete session with ID 1 pending and
a reply for the unknown ID 7. -/
theorem c3_unknown_id_fatal_witness :
    RunnerProcess.run ⟨[(1, Fut.pending)], []⟩ [⟨7, true, Json.null⟩] =
      (⟨[(1, Fut.pending)], []⟩, some PyErr.keyError) :=
  (c3_unknown_id_fatal ⟨[(1, Fut.pending)], []⟩ ⟨7, true, Json.null⟩ [] (by decide)).1

/-- Every member of `range' s n` is at least `s`. -/
theorem range'_lower_bound : ∀ (n s b : Nat), b ∈ List.range' s n → s ≤ b
  | 0, s, b, h => by simp [List.range'] at h
  | n+1, s, b, h => by
    simp only [List.range'] at h
    rcases List.mem_cons.1 h with h1 | h1
    · exact Nat.le_of_eq h1.symm
    · exact Nat.le_of_succ_le (range'_lower_bound n (s+1) b h1)

/-- `range' s n` is strictly increasing. -/
theorem range'_pairwise_lt : ∀ (n s : Nat), List.Pairwise (· < ·) (List.range' s n)
  | 0, _ => List.Pairwise.nil
  | n+1, s => by
    simp only [List.range']
    refine List.Pairwise.cons ?_ (range'_pairwise_lt n (s+1))
    intro b hb
    exact Nat.lt_of_lt_of_le (Nat.lt_succ_self s) (range'_lower_bound n (s+1) b hb)

/-- The writer activity preserves the dequeued submissions verbatim
and in order. -/
theorem command_writer_payloads : ∀ (subs : List (String × String)) (n : Nat),
    (command_writer n subs).map (fun e => e.2) = subs
  | [], _ => rfl
  | (c, a) :: rest, n => by
    simp only [command_writer, List.map_cons, List.cons.injEq]
    exact ⟨trivial, command_writer_payloads rest (n+1)⟩

/-- The correlation IDs the writer assigns, starting after
`request_id`, are consecutive. -/
theorem command_writer_ids : ∀ (subs : List (String × String)) (n : Nat),
    (command_writer n subs).map Prod.fst = List.range' (n+1) subs.length
  | [], _ => rfl
  | (c, a) :: rest, n => by
    simp only [command_writer, List.map_cons, List.length_cons, List.range']
    rw [command_writer_ids rest (n+1)]

/-- C4: the writer activity writes the dequeued submissions to the
subprocess in exactly FIFO order, assigning the written commands the
fresh correlation IDs 1, 2, 3, ... — strictly increasing, never reused
— while ID 0 is reserved in the initial pending table for the implicit
ready reply. -/
theorem c4_writer_order (subs : List (String × String)) :
    (command_writer 0 subs).map (fun e => e.2) = subs ∧
    (command_writer 0 subs).map Prod.fst = List.range' 1 subs.length ∧
    List.Pairwise (fun a b => a < b) ((command_writer 0 subs).map Prod.fst) ∧
    0 ∉ (command_writer 0 subs).map Prod.fst ∧
    RunnerProcess.initialState.table.map Prod.fst = [0] := by
  refine ⟨command_writer_payloads subs 0, command_writer_ids subs 0, ?_, ?_, rfl⟩
  · rw [command_writer_ids subs 0]
    exact range'_pairwise_lt subs.length 1
  · rw [command_writer_ids subs 0]
    intro hb
    exact absurd (range'_lower_bound subs.length 1 0 hb) (by decide)

/-- C5: the submission queue created by `RunnerProcess.__init__` has
capacity exactly 1 — every queue state reachable through completed put
and get operations holds at most one submission triple, and a put
against a full queue suspends without enqueueing anything. -/
theorem c5_queue_single_slot :
    (∀ (α : Type) (items : List α), QueueReachable items →
      items.length ≤ RunnerProcess.queueMaxsize) ∧
    (∀ (α : Type) (items : List α) (x : α),
      RunnerProcess.queueMaxsize ≤ items.length → queue_put items x = none) := by
  constructor
  · intro α items h
    induction h with
    | empty => simp [RunnerProcess.queueMaxsize]
    | enq items x items' hr hput ih =>
      unfold queue_put at hput
      by_cases hl : items.length < RunnerProcess.queueMaxsize
      · rw [if_pos hl] at hput
        cases hput
        simp only [List.length_append, List.length_cons, List.length_nil]
        simp only [RunnerProcess.queueMaxsize] at hl ⊢
        omega
      · rw [if_neg hl] at hput
        cases hput
    | deq items x items' hr hget ih =>
      cases items with
      | nil => simp [queue_get] at hget
      | cons y rest =>
        simp only [queue_get] at hget
        cases hget
        simp only [List.length_cons] at ih
        omega
  · intro α items x h
    unfold queue_put
    rw [if_neg (Nat.not_lt.2 h)]

/-- Witness for C5: the empty queue is within capacity, and a put
against a queue already holding one item suspends. -/
theorem c5_queue_single_slot_witness :
    ([] : List Nat).length ≤ RunnerProcess.queueMaxsize ∧
    queue_put [(0 : Nat)] 1 = none :=
  ⟨c5_queue_single_slot.1 Nat [] QueueReachable.empty,
   c5_queue_single_slot.2 Nat [0] 1 (by decide)⟩

/-- C6 counterexample: in the Starting window — after `Runner.start`
has launched the session but before the ready reply arrived —
`self.process` is already set, so `command` does NOT fail with the
Not-Running error: it is forwarded to the not-yet-ready session,
contradicting the claim that every state other than Running fails
immediately. -/
theorem c6_counterexample :
    Runner.command (Runner.start_begun Runner.stopped) "build" Json.null =
      CommandAttempt.forwarded "build" "null" ∧
    ¬ Runner.command (Runner.start_begun Runner.stopped) "build" Json.null =
      CommandAttempt.notRunning := by decide

/-- C6 (amended): `Runner.command` fails immediately with
`RunnerExitedException` — performing no I/O toward the subprocess —
exactly when `self.process` is unset (the Stopped state, including after
a crash); in the Starting window between process launch and the ready
reply, `self.process` is already set and the command is forwarded to the
session instead of being rejected. -/
theorem c6_not_running_iff (st : RunnerSt) (cmd : String) (args : Json) :
    (Runner.command st cmd args = CommandAttempt.notRunning ↔ st.process = none) ∧
    (st.process = none → Runner.command st cmd args = CommandAttempt.notRunning) := by
  cases hp : st.process with
  | none => simp [Runner.command, hp]
  | some u => simp [Runner.command, hp]

/-- Witness for the amended C6: in the Stopped state the command fails
with the Not-Running error. -/
theorem c6_not_running_iff_witness :
    Runner.command Runner.stopped "build" Json.null = CommandAttempt.notRunning :=
  (c6_not_running_iff Runner.stopped "build" Json.null).2 rfl

/-- C7 counterexample: `Runner.stop` invoked on a Running manager only
cancels the session task and awaits it — it never sends the explicit
quit command, contradicting the claim that stop() sends "quit" when the
session accepted it. -/
theorem c7_counterexample :
    (Runner.stop ⟨some (), some (), some Json.null⟩).2 =
      [TeardownAction.cancelSession, TeardownAction.awaitSession] ∧
    ¬ TeardownAction.sendQuit ∈ (Runner.stop ⟨some (), some (), some Json.null⟩).2 := by
  decide

/-- C7 (amended): `Runner.stop` from Running or Starting cancels the
session task and awaits its teardown, after which the manager is
Stopped; it sends no quit command — the explicit quit is sent by
`Runner.restart` when a live session exists.  `stop()` when already
Stopped completes without error and changes nothing. -/
theorem c7_stop_semantics (st : RunnerSt) :
    (st.processTask.isSome = true →
      Runner.stop st = (⟨none, none, st.settings⟩,
        [TeardownAction.cancelSession, TeardownAction.awaitSession]) ∧
      ¬ TeardownAction.sendQuit ∈ (Runner.stop st).2) ∧
    (st.processTask = none → Runner.stop st = (st, [])) ∧
    (st.process.isSome = true →
      TeardownAction.sendQuit ∈ Runner.restart_actions st) := by
  obtain ⟨p, t, s⟩ := st
  cases t <;> cases p <;>
    simp [Runner.stop, Runner.restart_actions]

/-- Witness for the amended C7: stopping a Running manager, stopping
an already-Stopped manager, and the quit command sent by restart. -/
theorem c7_stop_semantics_witness :
    Runner.stop ⟨some (), some (), none⟩ =
      (⟨none, none, none⟩, [TeardownAction.cancelSession, TeardownAction.awaitSession]) ∧
    Runner.stop Runner.stopped = (Runner.stopped, []) ∧
    TeardownAction.sendQuit ∈ Runner.restart_actions ⟨some (), some (), none⟩ :=
  ⟨((c7_stop_semantics ⟨some (), some (), none⟩).1 rfl).1,
   (c7_stop_semantics Runner.stopped).2.1 rfl,
   (c7_stop_semantics ⟨some (), some (), none⟩).2.2 rfl⟩

/-- Cancelling the caller registered under ID `i` leaves every key of
the pending table in place. -/
theorem cancelCaller_keys : ∀ (t : List (Nat × Fut)) (i : Nat),
    (t.map (fun p => if p.1 = i then (p.1, cancelFut p.2) else p)).map Prod.fst =
      t.map Prod.fst
  | [], _ => rfl
  | p :: rest, i => by
    by_cases hp : p.1 = i <;> simp [hp, cancelCaller_keys rest i]

/-- Cancelling the caller registered under ID `i` leaves the binding
of every other ID unchanged. -/
theorem lookupAssoc_cancel_ne (i j : Nat) (hne : j ≠ i) :
    ∀ (t : List (Nat × Fut)),
      lookupAssoc j (t.map (fun p => if p.1 = i then (p.1, cancelFut p.2) else p)) =
        lookupAssoc j t
  | [] => rfl
  | p :: rest => by
    by_cases hp : p.1 = i
    · have hq : ¬ p.1 = j := fun h => hne (h ▸ hp)
      simp only [List.map_cons, if_pos hp, lookupAssoc]
      rw [if_neg hq, if_neg hq]
      exact lookupAssoc_cancel_ne i j hne rest
    · simp only [List.map_cons, if_neg hp, lookupAssoc]
      by_cases hq : p.1 = j
      · rw [if_pos hq, if_pos hq]
      · rw [if_neg hq, if_neg hq]
        exact lookupAssoc_cancel_ne i j hne rest

/-- C8 counterexample: two commands outstanding (IDs 1 and 2), the
caller of command 1 cancels its await, and the worker then replies to
ID 1 first and ID 2 second.  Resolving the cancelled handle raises
`InvalidStateError`, the reader activity terminates on the spot, and the
reply to ID 2 — although present in the input — is never delivered: its
caller's future stays pending.  This contradicts the claim that the
reader continues running and every other outstanding ID is still
delivered. -/
theorem c8_counterexample :
    (result_reader (cancelCaller ⟨[(1, Fut.pending), (2, Fut.pending)], []⟩ 1)
        [⟨1, true, Json.null⟩, ⟨2, true, Json.null⟩]).2 = some PyErr.invalidState ∧
    futureOf (result_reader (cancelCaller ⟨[(1, Fut.pending), (2, Fut.pending)], []⟩ 1)
        [⟨1, true, Json.null⟩, ⟨2, true, Json.null⟩]).1 2 = some Fut.pending ∧
    ¬ futureOf (result_reader (cancelCaller ⟨[(1, Fut.pending), (2, Fut.pending)], []⟩ 1)
        [⟨1, true, Json.null⟩, ⟨2, true, Json.null⟩]).1 2 =
      some (Fut.fulfilled Json.null) := by decide

/-- C8 (amended): cancelling an individual `command()` await removes
only that caller's interest — the pending-table entry stays registered
(the written command is fire-and-forget) and every other ID's binding is
untouched — but when the reader activity later reads the reply for the
cancelled ID, resolving the cancelled handle raises
`InvalidStateError`: the reader terminates at that line, and replies to
other outstanding IDs are delivered only if they were read earlier. -/
theorem c8_cancel_isolation :
    (∀ (st : MuxState) (i : Nat),
      (cancelCaller st i).table.map Prod.fst = st.table.map Prod.fst ∧
      (∀ j, j ≠ i →
        lookupAssoc j (cancelCaller st i).table = lookupAssoc j st.table)) ∧
    (∀ (st : MuxState) (line : ReplyLine) (rest : List ReplyLine),
      lookupAssoc line.id st.table = some Fut.cancelled →
      (result_reader st (line :: rest)).2 = some PyErr.invalidState) := by
  constructor
  · intro st i
    exact ⟨cancelCaller_keys st.table i,
      fun j hj => lookupAssoc_cancel_ne i j hj st.table⟩
  · intro st line rest hlook
    obtain ⟨t', hpop⟩ := popAssoc_of_lookup line.id st.table Fut.cancelled hlook
    have hstep : result_reader_step st line =
        (⟨t', st.done ++ [(line.id, Fut.cancelled)]⟩, some PyErr.invalidState) := by
      simp [result_reader_step, hpop]
    simp [result_reader, hstep]

/-- Witness for the amended C8: with IDs 1 and 2 pending and caller 1
cancelled, ID 2 keeps its pending binding, and reading 1's reply raises
`InvalidStateError`. -/
theorem c8_cancel_isolation_witness :
    lookupAssoc 2 (cancelCaller ⟨[(1, Fut.pending), (2, Fut.pending)], []⟩ 1).table =
      some Fut.pending ∧
    (result_reader (cancelCaller ⟨[(1, Fut.pending), (2, Fut.pending)], []⟩ 1)
        [⟨1, true, Json.null⟩]).2 = some PyErr.invalidState :=
  ⟨((c8_cancel_isolation.1 ⟨[(1, Fut.pending), (2, Fut.pending)], []⟩ 1).2 2
      (by decide)).trans (by decide),
   c8_cancel_isolation.2 (cancelCaller ⟨[(1, Fut.pending), (2, Fut.pending)], []⟩ 1)
      ⟨1, true, Json.null⟩ [] (by decide)⟩

/-- C9: the teardown loop visits every registered site, and for each
one `cleanup_site` attempts both the manager stop and the scratch
directory removal, logging failures instead of propagating them — in
particular the directory removal happens (and other sites are processed)
whether or not that site's stop call raised. -/
theorem c9_teardown (sites : List SiteEffects) :
    (load_sites_teardown sites).length = sites.length ∧
    (∀ (k : Nat) (s : SiteEffects), sites.get? k = some s →
      (load_sites_teardown sites).get? k = some (cleanup_site s) ∧
      (cleanup_site s).dirRemoved = exceptSucceeded s.cleanupResult ∧
      (cleanup_site s).runnerStopped = exceptSucceeded s.stopResult ∧
      (cleanup_site s).stopFailureLogged = (!exceptSucceeded s.stopResult) ∧
      (cleanup_site s).dirFailureLogged = (!exceptSucceeded s.cleanupResult)) := by
  refine ⟨by simp [load_sites_teardown], ?_⟩
  intro k s hk
  obtain ⟨sr, cr⟩ := s
  constructor
  · rw [List.get?_eq_getElem?] at hk
    simp only [load_sites_teardown, List.get?_eq_getElem?, List.getElem?_map, hk,
      Option.map_some']
  · cases sr <;> cases cr <;> simp [cleanup_site, exceptSucceeded]

/-- Witness for C9: two sites, the first one's stop raises; its
scratch directory is still removed and the second site is still
processed. -/
theorem c9_teardown_witness :
    (load_sites_teardown
        [⟨Except.error "boom", Except.ok ()⟩, ⟨Except.ok (), Except.ok ()⟩]).get? 0 =
      some (cleanup_site ⟨Except.error "boom", Except.ok ()⟩) ∧
    (cleanup_site (⟨Except.error "boom", Except.ok ()⟩ : SiteEffects)).dirRemoved = true ∧
    (load_sites_teardown
        [⟨Except.error "boom", Except.ok ()⟩, ⟨Except.ok (), Except.ok ()⟩]).get? 1 =
      some (cleanup_site ⟨Except.ok (), Except.ok ()⟩) := by
  have h0 := (c9_teardown
      [⟨Except.error "boom", Except.ok ()⟩, ⟨Except.ok (), Except.ok ()⟩]).2 0
    ⟨Except.error "boom", Except.ok ()⟩ rfl
  have h1 := (c9_teardown
      [⟨Except.error "boom", Except.ok ()⟩, ⟨Except.ok (), Except.ok ()⟩]).2 1
    ⟨Except.ok (), Except.ok ()⟩ rfl
  exact ⟨h0.1, h0.2.1.trans rfl, h1.1⟩

/-- C10: the worker's dispatch loop accepts the command name exec —
for any argument list whose first element is a string `s` it runs
`os.system` on `s` with output redirected to stderr and replies success
with the null payload — and any command name outside the dispatched set
draws a `-` reply carrying the text No such command (name) while the
loop keeps serving subsequent commands. -/
theorem c10_exec_and_unknown :
    (∀ (w : WorkerState) (cmd_id s : String) (xs : List Json),
      run_dispatch w cmd_id "exec" (Json.arr (Json.str s :: xs)) =
        ⟨w, [Reply.success cmd_id Json.null],
          [Effect.shellSystem (s ++ " 1>&2")], LoopControl.next⟩) ∧
    (∀ (w : WorkerState) (cmd_id cmd : String) (args : Json),
      ¬ cmd ∈ (["quit", "setting", "extensions", "scan", "build", "render",
        "slugify", "exec"] : List String) →
      run_dispatch w cmd_id cmd args =
        ⟨w, [Reply.failure cmd_id (Json.str ("No such command (" ++ cmd ++ ")"))], [],
          LoopControl.next⟩ ∧
      ∀ rest, worker_loop w ((cmd_id, cmd, args) :: rest) =
        (Reply.failure cmd_id (Json.str ("No such command (" ++ cmd ++ ")")) ::
            (worker_loop w rest).1,
          (worker_loop w rest).2)) := by
  constructor
  · intro w cmd_id s xs
    rfl
  · intro w cmd_id cmd args h
    simp at h
    obtain ⟨h1, h2, h3, h4, h5, h6, h7, h8⟩ := h
    have hd : run_dispatch w cmd_id cmd args =
        ⟨w, [Reply.failure cmd_id (Json.str ("No such command (" ++ cmd ++ ")"))], [],
          LoopControl.next⟩ := by
      simp only [run_dispatch, if_neg h1, if_neg h2, if_neg h3, if_neg h4, if_neg h5,
        if_neg h6, if_neg h7, if_neg h8]
    refine ⟨hd, ?_⟩
    intro rest
    simp [worker_loop, hd]

/-- Concrete domain collaborators for exercising the dispatch loop. -/
def trivialOps : DomainOps :=
  ⟨[], Except.ok Json.null, fun _ => Except.ok Json.null,
    fun _ => Except.ok Json.null, fun _ => ""⟩

/-- Concrete worker state for exercising the dispatch loop. -/
def trivialWorker : WorkerState := ⟨[], trivialOps⟩

/-- Witness for C10: `exec` with argument list containing the string
ls runs the shell and replies success-null; the unknown command name
frobnicate draws the No-such-command failure reply. -/
theorem c10_exec_and_unknown_witness :
    run_dispatch trivialWorker "1" "exec" (Json.arr [Json.str "ls"]) =
      ⟨trivialWorker, [Reply.success "1" Json.null],
        [Effect.shellSystem ("ls" ++ " 1>&2")], LoopControl.next⟩ ∧
    run_dispatch trivialWorker "7" "frobnicate" Json.null =
      ⟨trivialWorker,
        [Reply.failure "7" (Json.str ("No such command (" ++ "frobnicate" ++ ")"))],
        [], LoopControl.next⟩ :=
  ⟨c10_exec_and_unknown.1 trivialWorker "1" "ls" [],
   (c10_exec_and_unknown.2 trivialWorker "7" "frobnicate" Json.null (by decide)).1⟩
